import Mathlib

/-!
Shallow embedding of the buffering and flush subsystem of
`src/SDFileLogger.h` (class `SDFileLogger`), together with a model of the
fixed-capacity circular buffer it uses.

Bytes are modelled as `Nat`; the storage backend (SdFat file) is modelled
as the list of bytes committed to the file, and each `file_.write` call is
driven by an acceptance oracle `accept : Nat → Nat → Nat` giving, for the
n-th write call of a flush and a requested length, the number of bytes the
backend reports as written.
-/

namespace SDLog

/-- Modelled from the spec: the repository's `internal/circular_buffer.hpp`
is not under `src/`; this is the fixed-capacity circular buffer of the
spec (§3, §4.1): `storage` of `capacity` elements, `head` the next write
slot, `tail` the oldest unread element, explicit `count`. -/
structure CircularBuffer where
  capacity : Nat
  storage : List Nat
  head : Nat
  tail : Nat
  count : Nat
  deriving Repr, DecidableEq

namespace CircularBuffer

/-- Modelled from the spec (§4.1): `size()` is the element count. -/
def size (b : CircularBuffer) : Nat := b.count

/-- Modelled from the spec (§3): empty iff `count == 0`. -/
def empty (b : CircularBuffer) : Bool := b.count == 0

/-- Modelled from the spec (§3): full iff `count == capacity`. -/
def full (b : CircularBuffer) : Bool := b.count == b.capacity

/-- Modelled from the spec (§4.1): `put` inserts at `head`, advances
`head = (head+1) mod N`, increments count; fails (no-op, returns false)
if full. -/
def put (c : Nat) (b : CircularBuffer) : CircularBuffer × Bool :=
  if b.count = b.capacity then (b, false)
  else ({ b with
            storage := b.storage.set b.head c
            head := (b.head + 1) % b.capacity
            count := b.count + 1 }, true)

/-- Modelled from the spec (§4.1, §4.2): `get` returns the element at
`tail` and advances `tail = (tail+1) mod N`, decrementing count; on an
empty buffer it returns the sentinel zero value without consuming
anything (callers "treat a sentinel zero-value return as nothing more to
move"). -/
def get (b : CircularBuffer) : Nat × CircularBuffer :=
  if b.count = 0 then (0, b)
  else (b.storage.getD b.tail 0,
        { b with tail := (b.tail + 1) % b.capacity, count := b.count - 1 })

/-- Modelled from the spec (§4.1): `reset` zeroes the cursors and the
count and does not scrub storage. -/
def reset (b : CircularBuffer) : CircularBuffer :=
  { b with head := 0, tail := 0, count := 0 }

/-- An empty buffer of capacity `n`, all storage zeroed. -/
def init (n : Nat) : CircularBuffer :=
  { capacity := n, storage := List.replicate n 0, head := 0, tail := 0, count := 0 }

/-- The logical byte sequence of the buffer, from `tail` to the most
recently written element, reading the circular storage modulo the
capacity. -/
def contentsList (b : CircularBuffer) : List Nat :=
  (List.range b.count).map (fun i => b.storage.getD ((b.tail + i) % b.capacity) 0)

/-- A contiguous linear read of `len` elements of storage starting at
index `start` (no wraparound): the data passed to one backend
`file_.write(&buffer[start], len)` call. -/
def lin (b : CircularBuffer) (start len : Nat) : List Nat :=
  (List.range len).map (fun i => b.storage.getD (start + i) 0)

/-- Structural well-formedness of a circular buffer: cursor bounds,
count bound, storage length, and the head/tail/count relation. -/
def WF (b : CircularBuffer) : Prop :=
  b.storage.length = b.capacity ∧ b.head < b.capacity ∧ b.tail < b.capacity ∧
    b.count ≤ b.capacity ∧ b.head = (b.tail + b.count) % b.capacity

/-- The buffer states reachable by `put`/`get`/`reset` from the empty
buffer of capacity `n`. -/
inductive Reachable (n : Nat) : CircularBuffer → Prop
  | init : Reachable n (CircularBuffer.init n)
  | put (c : Nat) {b : CircularBuffer} : Reachable n b → Reachable n (CircularBuffer.put c b).1
  | get {b : CircularBuffer} : Reachable n b → Reachable n (CircularBuffer.get b).2
  | reset {b : CircularBuffer} : Reachable n b → Reachable n (CircularBuffer.reset b)

end CircularBuffer

/-- The write calls issued by `writeBufferToSDFile` /
`writeReadyBufferToSDFile` (src/SDFileLogger.h:143-155) on a given
buffer: in the wraparound case (`head < tail`, or `tail > 0` with the
buffer full), two calls — `capacity - tail` bytes from `storage[tail]`,
then `head` bytes from `storage[0]`; otherwise one call of `size()`
bytes from `storage[tail]`. -/
def flushCalls (b : CircularBuffer) : List (List Nat) :=
  if b.head < b.tail ∨ (0 < b.tail ∧ b.size = b.capacity) then
    [b.lin b.tail (b.capacity - b.tail), b.lin 0 b.head]
  else
    [b.lin b.tail b.size]

end SDLog

namespace SDLog

/-- Observable events of one flush, in program order: a backend write
call (with the data handed to it and the byte count the backend reported
written), the backend durability flush `file_.flush()`, the buffer
`reset()`, and entry into the `errorHalt` fatal path. -/
inductive Ev where
  | wr (data : List Nat) (accepted : Nat)
  | fsync
  | bufReset
  | fatal
  deriving Repr, DecidableEq

/-- Issue the given write calls in order against the backend file,
numbering them from `idx` and asking the acceptance oracle for each
call's reported byte count; returns the write events, the summed
reported byte count (`bytes_written` in the source), and the file
contents (each call appends the accepted prefix of its data). -/
def doWrites (accept : Nat → Nat → Nat) (idx : Nat) (calls : List (List Nat))
    (file : List Nat) : List Ev × Nat × List Nat :=
  match calls with
  | [] => ([], 0, file)
  | d :: rest =>
    let a := accept idx d.length
    let r := doWrites accept (idx + 1) rest (file ++ d.take a)
    (Ev.wr d a :: r.1, a + r.2.1, r.2.2)

/-- `writeBufferToSDFile` / `writeReadyBufferToSDFile`
(src/SDFileLogger.h:133-164, 166-197) applied to one ring buffer and the
backend file: issue the one or two write calls of `flushCalls`, compare
the summed reported count against `size()`; on mismatch enter `errorHalt`
(leaving the buffer as is), otherwise `file_.flush()` then reset the
buffer. -/
def writeRing (accept : Nat → Nat → Nat) (b : CircularBuffer) (file : List Nat) :
    List Ev × CircularBuffer × List Nat :=
  let r := doWrites accept 0 (flushCalls b) file
  if r.2.1 = b.size then
    (r.1 ++ [Ev.fsync, Ev.bufReset], b.reset, r.2.2)
  else
    (r.1 ++ [Ev.fatal], b, r.2.2)

/-- State of the `SDFileLogger` sink: the primary `log_buffer_`, the
staging `ready_buffer_`, the bytes committed to the backend file, and
the sector count of the attached SD volume (`none` when `fs_` is null). -/
structure SDFileLogger where
  log_buffer : CircularBuffer
  ready_buffer : CircularBuffer
  fileData : List Nat
  fsSectors : Option Nat
  deriving Repr, DecidableEq

namespace SDFileLogger

/-- `BUFFER_SIZE` (src/SDFileLogger.h:25): capacity of the primary buffer. -/
def BUFFER_SIZE : Nat := 1024

/-- `READY_BUFFER_SIZE` (src/SDFileLogger.h:26): capacity of the ready
buffer, also the per-call staging budget of `prepareBuffer`. -/
def READY_BUFFER_SIZE : Nat := 512

/-- `SDFileLogger::size()` (src/SDFileLogger.h:35-38): returns
`file_.size()`, the byte count committed to the backend file. -/
def size (s : SDFileLogger) : Nat := s.fileData.length

/-- `SDFileLogger::capacity()` (src/SDFileLogger.h:40-44): sector count
of the card shifted left by 9 when a volume is attached, else 0. -/
def capacity (s : SDFileLogger) : Nat :=
  match s.fsSectors with
  | some n => n <<< 9
  | none => 0

/-- `log_putc` (src/SDFileLogger.h:90-93): push one byte into the
primary buffer, ignoring the result of `put`. -/
def log_putc (c : Nat) (s : SDFileLogger) : SDFileLogger :=
  { s with log_buffer := (s.log_buffer.put c).1 }

/-- `writeBufferToSDFile` at the sink level: flush the primary buffer. -/
def writeBufferToSDFile (accept : Nat → Nat → Nat) (s : SDFileLogger) :
    List Ev × SDFileLogger :=
  let r := writeRing accept s.log_buffer s.fileData
  (r.1, { s with log_buffer := r.2.1, fileData := r.2.2 })

/-- `writeReadyBufferToSDFile` at the sink level: flush the ready buffer. -/
def writeReadyBufferToSDFile (accept : Nat → Nat → Nat) (s : SDFileLogger) :
    List Ev × SDFileLogger :=
  let r := writeRing accept s.ready_buffer s.fileData
  (r.1, { s with ready_buffer := r.2.1, fileData := r.2.2 })

/-- `flush_` (src/SDFileLogger.h:100-108): write the ready buffer when it
is nonempty, the primary buffer otherwise. -/
def flush_ (accept : Nat → Nat → Nat) (s : SDFileLogger) :
    List Ev × SDFileLogger :=
  if s.ready_buffer.empty then writeBufferToSDFile accept s
  else writeReadyBufferToSDFile accept s

/-- The loop body iterations of `prepareBuffer` (src/SDFileLogger.h:77-87)
with `fuel` iterations left: pop one byte from the primary buffer, stop
if it is zero, otherwise `put` it into the ready buffer (whose failure is
ignored by the source). Also returns the list of bytes successfully
pushed into the ready buffer, in order. -/
def prepGo : Nat → SDFileLogger → SDFileLogger × List Nat
  | 0, s => (s, [])
  | fuel + 1, s =>
    let g := s.log_buffer.get
    if g.1 = 0 then ({ s with log_buffer := g.2 }, [])
    else
      let p := s.ready_buffer.put g.1
      let r := prepGo fuel { s with log_buffer := g.2, ready_buffer := p.1 }
      (r.1, (if p.2 then [g.1] else []) ++ r.2)

/-- `prepareBuffer` (src/SDFileLogger.h:77-87): run the loop for
`READY_BUFFER_SIZE / sizeof(char)` iterations. -/
def prepareBuffer (s : SDFileLogger) : SDFileLogger :=
  (prepGo (READY_BUFFER_SIZE / 1) s).1

/-- The sink as constructed, with both buffers empty and the file
truncated, attached to a volume of `sectors` sectors. -/
def init (sectors : Option Nat) : SDFileLogger :=
  { log_buffer := CircularBuffer.init BUFFER_SIZE
    ready_buffer := CircularBuffer.init READY_BUFFER_SIZE
    fileData := []
    fsSectors := sectors }

end SDFileLogger

end SDLog

namespace SDLog

/-- The data handed to the backend write calls among a flush's events,
in order. -/
def writeCallData (evs : List Ev) : List (List Nat) :=
  evs.filterMap (fun e => match e with | Ev.wr d _ => some d | _ => none)

/-- The summed byte counts the backend reported for the write calls of a
flush (the source's `bytes_written`). -/
def acceptedSum (evs : List Ev) : Nat :=
  (evs.map (fun e => match e with | Ev.wr _ a => a | _ => 0)).sum

/-- A backend that accepts every write in full. -/
def perfectAccept : Nat → Nat → Nat := fun _ len => len

/-- The capacity-8 wrapped buffer of the spec's wraparound test:
tail = 6, head = 3, size = 5, so the pending bytes are
storage[6], storage[7], storage[0], storage[1], storage[2]. -/
def exBuf8 : CircularBuffer :=
  { capacity := 8, storage := [10, 20, 30, 0, 0, 0, 40, 50],
    head := 3, tail := 6, count := 5 }

/-- A sink state whose ready buffer is completely full and whose primary
buffer holds one pending nonzero byte. -/
def exFullReady : SDFileLogger :=
  { log_buffer := { capacity := 1024, storage := 7 :: List.replicate 1023 0,
                    head := 1, tail := 0, count := 1 }
    ready_buffer := { capacity := 512, storage := List.replicate 512 1,
                      head := 0, tail := 0, count := 512 }
    fileData := []
    fsSectors := none }

/-- A full circular buffer of capacity 1. -/
def exFullBuf : CircularBuffer :=
  { capacity := 1, storage := [9], head := 0, tail := 0, count := 1 }

/-- A sink whose primary buffer is full. -/
def exFullSink : SDFileLogger :=
  { log_buffer := exFullBuf, ready_buffer := CircularBuffer.init 4,
    fileData := [], fsSectors := none }

/-- A sink whose ready buffer is full and whose primary buffer's front
byte is the zero sentinel. -/
def exSentinelFull : SDFileLogger :=
  { log_buffer := { capacity := 4, storage := [0, 0, 0, 0],
                    head := 1, tail := 0, count := 1 }
    ready_buffer := { capacity := 2, storage := [1, 1],
                      head := 0, tail := 0, count := 2 }
    fileData := []
    fsSectors := none }

/-- A sink whose primary buffer holds exactly one pending byte, the zero
sentinel. -/
def exSentinelFront : SDFileLogger :=
  { log_buffer := { capacity := 4, storage := [0, 5, 0, 0],
                    head := 1, tail := 0, count := 1 }
    ready_buffer := CircularBuffer.init 4
    fileData := []
    fsSectors := none }

/-- The operations whose interleavings the staging FIFO property
quantifies over: one producer append (`log_putc` of one byte), one
`prepareBuffer()` call, one `flush()` call. -/
inductive SinkOp where
  | append (c : Nat)
  | stage
  | doFlush
  deriving Repr, DecidableEq

/-- A sink run state with two ghost streams: every byte ever successfully
staged into the ready buffer, in order, and every byte handed to the
backend by a ready-buffer flush, in order. -/
structure RunSt where
  sink : SDFileLogger
  staged : List Nat
  readyOut : List Nat

/-- One step of an interleaving of appending, staging and flushing
against a backend that accepts all writes, recording the ghost
streams. -/
def runStep (st : RunSt) (op : SinkOp) : RunSt :=
  match op with
  | SinkOp.append c =>
    { sink := SDFileLogger.log_putc c st.sink
      staged := st.staged
      readyOut := st.readyOut }
  | SinkOp.stage =>
    let r := SDFileLogger.prepGo (SDFileLogger.READY_BUFFER_SIZE / 1) st.sink
    { sink := r.1, staged := st.staged ++ r.2, readyOut := st.readyOut }
  | SinkOp.doFlush =>
    let r := SDFileLogger.flush_ perfectAccept st.sink
    { sink := r.2
      staged := st.staged
      readyOut := st.readyOut ++
        (if st.sink.ready_buffer.empty then []
         else (flushCalls st.sink.ready_buffer).flatten) }

/-- Run an interleaving of append, staging and flush calls from the
freshly constructed sink. -/
def runOps (ops : List SinkOp) : RunSt :=
  ops.foldl runStep
    { sink := SDFileLogger.init none, staged := [], readyOut := [] }

/-- A concrete interleaving that stages and flushes real data: append
the bytes 7 and 8, stage them into the ready buffer, then flush. -/
def exOps : List SinkOp :=
  [SinkOp.append 7, SinkOp.append 8, SinkOp.stage, SinkOp.doFlush]

end SDLog

namespace SDLog

/-- A number below twice the modulus reduces by at most one subtraction. -/
theorem mod_two_cases (a N : Nat) (h : a < 2 * N) :
    a % N = if a < N then a else a - N := by
  split
  · exact Nat.mod_eq_of_lt (by omega)
  · rw [Nat.mod_eq_sub_mod (by omega), Nat.mod_eq_of_lt (by omega)]

namespace CircularBuffer

/-- Under well-formedness, the head cursor is the tail plus the count,
possibly reduced once by the capacity. -/
theorem head_cases {b : CircularBuffer} (h : b.WF) :
    b.head = b.tail + b.count ∨ b.head + b.capacity = b.tail + b.count := by
  obtain ⟨-, hh, ht, hc, hrel⟩ := h
  rw [mod_two_cases _ _ (by omega)] at hrel
  split at hrel
  · left; exact hrel
  · right; omega

/-- A linear read has the requested length. -/
theorem length_lin (b : CircularBuffer) (s l : Nat) : (b.lin s l).length = l := by
  simp [lin]

/-- The logical contents have length `size()`. -/
theorem length_contentsList (b : CircularBuffer) : b.contentsList.length = b.count := by
  simp [contentsList]

/-- `put` preserves well-formedness. -/
theorem WF.put {b : CircularBuffer} (c : Nat) (h : b.WF) : (b.put c).1.WF := by
  obtain ⟨hlen, hh, ht, hc, hrel⟩ := h
  unfold CircularBuffer.put
  split
  · exact ⟨hlen, hh, ht, hc, hrel⟩
  · unfold WF
    dsimp only
    refine ⟨by simpa using hlen, Nat.mod_lt _ (by omega), ht, by omega, ?_⟩
    rw [hrel, Nat.mod_add_mod, Nat.add_assoc]

/-- `get` preserves well-formedness. -/
theorem WF.get {b : CircularBuffer} (h : b.WF) : b.get.2.WF := by
  obtain ⟨hlen, hh, ht, hc, hrel⟩ := h
  unfold CircularBuffer.get
  split
  · exact ⟨hlen, hh, ht, hc, hrel⟩
  · unfold WF
    dsimp only
    refine ⟨hlen, hh, Nat.mod_lt _ (by omega), by omega, ?_⟩
    rw [hrel, Nat.mod_add_mod]
    congr 1
    omega

/-- `reset` preserves well-formedness. -/
theorem WF.reset {b : CircularBuffer} (h : b.WF) : b.reset.WF := by
  obtain ⟨hlen, hh, ht, hc, hrel⟩ := h
  unfold CircularBuffer.reset WF
  dsimp only
  exact ⟨hlen, by omega, by omega, by omega, by simp⟩

/-- The empty buffer of positive capacity is well-formed. -/
theorem WF.init {n : Nat} (h : 0 < n) : (CircularBuffer.init n).WF := by
  refine ⟨by simp [CircularBuffer.init], by simpa [CircularBuffer.init] using h,
    by simpa [CircularBuffer.init] using h, by simp [CircularBuffer.init], ?_⟩
  simp [CircularBuffer.init]

/-- Every reachable state of a positive-capacity buffer is well-formed. -/
theorem Reachable.wf {n : Nat} (hn : 0 < n) {b : CircularBuffer}
    (h : Reachable n b) : b.WF := by
  induction h with
  | init => exact WF.init hn
  | put c _ ih => exact ih.put c
  | get _ ih => exact ih.get
  | reset _ ih => exact ih.reset

end CircularBuffer

end SDLog

namespace SDLog

namespace CircularBuffer

/-- In the wraparound case of the flush logic, the two segment lengths
`capacity - tail` and `head` sum to `size()`. -/
theorem wrap_arith {b : CircularBuffer} (h : b.WF)
    (hw : b.head < b.tail ∨ (0 < b.tail ∧ b.size = b.capacity)) :
    b.head + b.capacity = b.tail + b.count := by
  have hd := head_cases h
  obtain ⟨-, hh, ht, hc, -⟩ := h
  simp only [CircularBuffer.size] at hw
  rcases hd with h1 | h1 <;> rcases hw with h2 | ⟨h2, h3⟩ <;> omega

/-- In the non-wraparound case of the flush logic, the logical span is a
single contiguous segment inside the storage array. -/
theorem nonwrap_arith {b : CircularBuffer} (h : b.WF)
    (hw : ¬(b.head < b.tail ∨ (0 < b.tail ∧ b.size = b.capacity))) :
    b.tail + b.count ≤ b.capacity := by
  have hd := head_cases h
  obtain ⟨-, hh, ht, hc, -⟩ := h
  push_neg at hw
  simp only [CircularBuffer.size] at hw
  rcases hd with h1 | h1
  · omega
  · rcases Nat.eq_zero_or_pos b.tail with h2 | h2
    · omega
    · have h3 := hw.2 h2
      omega

end CircularBuffer

/-- The concatenation of the write calls issued by the flush logic equals
the buffer's logical contents, for any well-formed buffer. -/
theorem flushCalls_flatten {b : CircularBuffer} (h : b.WF) :
    (flushCalls b).flatten = b.contentsList := by
  unfold flushCalls
  split
  case isTrue hw =>
    have harith := CircularBuffer.wrap_arith h hw
    obtain ⟨hlen, hh, ht, hc, hrel⟩ := h
    have hcnt : b.count = (b.capacity - b.tail) + b.head := by omega
    simp only [List.flatten_cons, List.flatten_nil, List.append_nil]
    unfold CircularBuffer.contentsList
    rw [hcnt, List.range_add, List.map_append, List.map_map]
    congr 1
    · apply List.map_congr_left
      intro i hi
      rw [List.mem_range] at hi
      rw [Nat.mod_eq_of_lt (by omega)]
    · apply List.map_congr_left
      intro i hi
      rw [List.mem_range] at hi
      simp only [Function.comp]
      have he : b.tail + ((b.capacity - b.tail) + i) = b.capacity + i := by omega
      rw [he, Nat.add_mod_left, Nat.mod_eq_of_lt (by omega), Nat.zero_add]
  case isFalse hw =>
    have harith := CircularBuffer.nonwrap_arith h hw
    obtain ⟨hlen, hh, ht, hc, hrel⟩ := h
    simp only [List.flatten_cons, List.flatten_nil, List.append_nil]
    unfold CircularBuffer.lin CircularBuffer.contentsList CircularBuffer.size
    apply List.map_congr_left
    intro i hi
    rw [List.mem_range] at hi
    rw [Nat.mod_eq_of_lt (by omega)]

end SDLog

namespace SDLog

/-- Injectivity of circular indexing below the capacity. -/
theorem mod_shift_inj {t a c N : Nat} (ha : a < N) (hc : c < N)
    (h : (t + a) % N = (t + c) % N) : a = c := by
  have h2 := Nat.ModEq.add_left_cancel' t h
  simpa [Nat.ModEq, Nat.mod_eq_of_lt ha, Nat.mod_eq_of_lt hc] using h2

/-- Reading a list at the updated position. -/
theorem getD_set_self {l : List Nat} {i x : Nat} (h : i < l.length) :
    (l.set i x).getD i 0 = x := by
  simp [List.getD_eq_getElem?_getD, List.getElem?_set_self, h]

/-- Reading a list away from the updated position. -/
theorem getD_set_ne {l : List Nat} {i j x : Nat} (h : i ≠ j) :
    (l.set i x).getD j 0 = l.getD j 0 := by
  simp [List.getD_eq_getElem?_getD, List.getElem?_set_ne h]

namespace CircularBuffer

/-- `put` appends the new element to the logical contents exactly when it
succeeds, for a well-formed buffer. -/
theorem contentsList_put {b : CircularBuffer} (c : Nat) (h : b.WF) :
    (b.put c).1.contentsList =
      b.contentsList ++ (if (b.put c).2 then [c] else []) := by
  obtain ⟨hlen, hh, ht, hc, hrel⟩ := h
  unfold CircularBuffer.put
  split
  case isTrue hfull => simp
  case isFalse hfull =>
    unfold contentsList
    dsimp only
    simp only [if_pos]
    rw [List.range_succ, List.map_append]
    congr 1
    · apply List.map_congr_left
      intro i hi
      rw [List.mem_range] at hi
      apply getD_set_ne
      rw [hrel]
      intro hcontra
      have : b.count = i := mod_shift_inj (by omega) (by omega) hcontra
      omega
    · simp only [List.map_cons, List.map_nil]
      rw [← hrel]
      rw [getD_set_self (by omega)]

/-- For a nonempty well-formed buffer, the logical contents are the byte
`get` returns followed by the contents after `get`. -/
theorem contentsList_get {b : CircularBuffer} (h : b.WF) (hne : b.count ≠ 0) :
    b.contentsList = b.get.1 :: b.get.2.contentsList := by
  obtain ⟨hlen, hh, ht, hc, hrel⟩ := h
  unfold CircularBuffer.get
  rw [if_neg hne]
  unfold contentsList
  dsimp only
  have hcnt : b.count = (b.count - 1) + 1 := by omega
  rw [hcnt, List.range_succ_eq_map, List.map_cons, List.map_map]
  congr 1
  · rw [Nat.add_zero, Nat.mod_eq_of_lt ht]
  · apply List.map_congr_left
    intro i hi
    rw [List.mem_range] at hi
    simp only [Function.comp]
    have he : (b.tail + 1 + i) % b.capacity = (b.tail + i.succ) % b.capacity := by
      congr 1
      omega
    rw [Nat.mod_add_mod, he]

/-- `reset` empties the logical contents. -/
theorem contentsList_reset (b : CircularBuffer) : b.reset.contentsList = [] := rfl

/-- A full buffer rejects `put` and is left unchanged. -/
theorem put_full {b : CircularBuffer} (c : Nat) (h : b.count = b.capacity) :
    b.put c = (b, false) := by
  simp [CircularBuffer.put, h]

/-- `get` on an empty buffer returns the sentinel and leaves the buffer
unchanged. -/
theorem get_empty {b : CircularBuffer} (h : b.count = 0) : b.get = (0, b) := by
  simp [CircularBuffer.get, h]

end CircularBuffer

/-- The flush logic issues one call, or two in the wraparound case. -/
theorem flushCalls_length (b : CircularBuffer) : (flushCalls b).length ≤ 2 := by
  unfold flushCalls
  split <;> simp

/-- The write events produced by `doWrites` carry exactly the requested
calls, and their reported counts sum to the returned total. -/
theorem doWrites_spec (accept : Nat → Nat → Nat) (calls : List (List Nat)) :
    ∀ (idx : Nat) (file : List Nat),
      writeCallData (doWrites accept idx calls file).1 = calls ∧
      acceptedSum (doWrites accept idx calls file).1 =
        (doWrites accept idx calls file).2.1 ∧
      (∀ e ∈ (doWrites accept idx calls file).1, ∃ d a, e = Ev.wr d a) := by
  induction calls with
  | nil => intro idx file; refine ⟨rfl, rfl, by simp [doWrites]⟩
  | cons d rest ih =>
    intro idx file
    obtain ⟨ih1, ih2, ih3⟩ := ih (idx + 1) (file ++ d.take (accept idx d.length))
    refine ⟨?_, ?_, ?_⟩
    · simp only [writeCallData] at ih1
      simp only [doWrites, writeCallData, List.filterMap_cons]
      rw [ih1]
    · simp only [acceptedSum] at ih2
      simp only [doWrites, acceptedSum, List.map_cons, List.sum_cons]
      rw [ih2]
    · intro e he
      simp only [doWrites, List.mem_cons] at he
      rcases he with he | he
      · exact ⟨d, accept idx d.length, he⟩
      · exact ih3 e he

end SDLog

namespace SDLog

/-- A flush hands the backend exactly the planned write calls, whatever
the backend reports. -/
theorem writeRing_calls (accept : Nat → Nat → Nat) (b : CircularBuffer)
    (file : List Nat) :
    writeCallData (writeRing accept b file).1 = flushCalls b := by
  obtain ⟨h1, -, -⟩ := doWrites_spec accept (flushCalls b) 0 file
  unfold writeRing
  dsimp only
  split <;>
    simp only [writeCallData, List.filterMap_append, List.filterMap_cons,
      List.filterMap_nil, List.append_nil] <;>
    simpa [writeCallData] using h1

/-- A flush leaves the buffer reset on a complete write and untouched
otherwise. -/
theorem writeRing_buffer_wf {b : CircularBuffer} (accept : Nat → Nat → Nat)
    (file : List Nat) (h : b.WF) : (writeRing accept b file).2.1.WF := by
  unfold writeRing
  dsimp only
  split
  · exact h.reset
  · exact h

/-- With a backend that accepts every write in full, `doWrites` reports
the total requested length. -/
theorem doWrites_perfect (calls : List (List Nat)) :
    ∀ (idx : Nat) (file : List Nat),
      (doWrites perfectAccept idx calls file).2.1 = (calls.map List.length).sum := by
  induction calls with
  | nil => intro idx file; rfl
  | cons d rest ih =>
    intro idx file
    simp only [doWrites, List.map_cons, List.sum_cons, perfectAccept]
    rw [ih]

/-- The planned write lengths of a well-formed buffer sum to `size()`. -/
theorem flushCalls_sum_length {b : CircularBuffer} (h : b.WF) :
    ((flushCalls b).map List.length).sum = b.size := by
  rw [← List.length_flatten, flushCalls_flatten h,
    CircularBuffer.length_contentsList]
  rfl

/-- With a backend that accepts every write in full, a flush of a
well-formed buffer succeeds and resets the buffer. -/
theorem writeRing_perfect {b : CircularBuffer} (file : List Nat) (h : b.WF) :
    (writeRing perfectAccept b file).2.1 = b.reset := by
  unfold writeRing
  dsimp only
  rw [doWrites_perfect, flushCalls_sum_length h, if_pos rfl]

end SDLog

namespace SDLog

namespace SDFileLogger

/-- `get` removes at most one element. -/
theorem get_count_ge (b : CircularBuffer) : b.count ≤ b.get.2.count + 1 := by
  unfold CircularBuffer.get
  split <;> dsimp only <;> omega

/-- The staging loop preserves well-formedness of the ready buffer and
appends exactly the successfully pushed bytes to its contents. -/
theorem prepGo_ready_spec :
    ∀ (fuel : Nat) (s : SDFileLogger), s.ready_buffer.WF →
      (prepGo fuel s).1.ready_buffer.WF ∧
      (prepGo fuel s).1.ready_buffer.contentsList =
        s.ready_buffer.contentsList ++ (prepGo fuel s).2 := by
  intro fuel
  induction fuel with
  | zero => intro s h; exact ⟨h, by simp [prepGo]⟩
  | succ n ih =>
    intro s h
    unfold prepGo
    dsimp only
    split
    · exact ⟨h, by simp⟩
    · obtain ⟨ihwf, ihc⟩ := ih
        { s with log_buffer := s.log_buffer.get.2,
                 ready_buffer := (s.ready_buffer.put s.log_buffer.get.1).1 }
        (h.put s.log_buffer.get.1)
      refine ⟨ihwf, ?_⟩
      rw [ihc]
      dsimp only
      rw [CircularBuffer.contentsList_put s.log_buffer.get.1 h, List.append_assoc]

/-- The staging loop preserves well-formedness of the primary buffer. -/
theorem prepGo_log_wf :
    ∀ (fuel : Nat) (s : SDFileLogger), s.log_buffer.WF →
      (prepGo fuel s).1.log_buffer.WF := by
  intro fuel
  induction fuel with
  | zero => intro s h; exact h
  | succ n ih =>
    intro s h
    unfold prepGo
    dsimp only
    split
    · exact h.get
    · exact ih _ h.get

/-- The staging loop pops at most `fuel` elements from the primary
buffer. -/
theorem prepGo_log_count :
    ∀ (fuel : Nat) (s : SDFileLogger),
      s.log_buffer.count ≤ (prepGo fuel s).1.log_buffer.count + fuel := by
  intro fuel
  induction fuel with
  | zero => intro s; simp [prepGo]
  | succ n ih =>
    intro s
    unfold prepGo
    dsimp only
    split
    · dsimp only
      have := get_count_ge s.log_buffer
      omega
    · dsimp only
      have h1 := ih { s with log_buffer := s.log_buffer.get.2,
                             ready_buffer := (s.ready_buffer.put s.log_buffer.get.1).1 }
      dsimp only at h1
      have := get_count_ge s.log_buffer
      omega

/-- A full ready buffer is never modified by the staging loop. -/
theorem prepGo_ready_full :
    ∀ (fuel : Nat) (s : SDFileLogger),
      s.ready_buffer.count = s.ready_buffer.capacity →
      (prepGo fuel s).1.ready_buffer = s.ready_buffer := by
  intro fuel
  induction fuel with
  | zero => intro s _; rfl
  | succ n ih =>
    intro s h
    unfold prepGo
    dsimp only
    split
    · rfl
    · rw [CircularBuffer.put_full _ h]
      exact ih { s with log_buffer := s.log_buffer.get.2,
                        ready_buffer := s.ready_buffer } h

/-- The staging loop never pushes a zero byte into the ready buffer. -/
theorem prepGo_no_zero :
    ∀ (fuel : Nat) (s : SDFileLogger) (x : Nat),
      x ∈ (prepGo fuel s).2 → x ≠ 0 := by
  intro fuel
  induction fuel with
  | zero => intro s x hx; simp [prepGo] at hx
  | succ n ih =>
    intro s x hx
    unfold prepGo at hx
    dsimp only at hx
    split at hx
    · simp at hx
    case isFalse hc =>
      rw [List.mem_append] at hx
      rcases hx with hx | hx
      · split at hx
        · simp at hx
          omega
        · simp at hx
      · exact ih _ x hx

/-- The staging loop stops immediately when the primary buffer yields a
zero byte, consuming it. -/
theorem prepGo_break (fuel : Nat) (s : SDFileLogger)
    (h : s.log_buffer.get.1 = 0) :
    prepGo (fuel + 1) s = ({ s with log_buffer := s.log_buffer.get.2 }, []) := by
  simp [prepGo, h]

end SDFileLogger

end SDLog

namespace SDLog

/-- One staging or flush step preserves buffer well-formedness and keeps
the staged ghost stream equal to the ready-flushed output followed by the
bytes still pending in the ready buffer. -/
theorem runStep_inv (st : RunSt) (op : SinkOp)
    (hl : st.sink.log_buffer.WF) (hr : st.sink.ready_buffer.WF)
    (hs : st.staged = st.readyOut ++ st.sink.ready_buffer.contentsList) :
    (runStep st op).sink.log_buffer.WF ∧
      (runStep st op).sink.ready_buffer.WF ∧
      (runStep st op).staged =
        (runStep st op).readyOut ++
          (runStep st op).sink.ready_buffer.contentsList := by
  cases op with
  | append c =>
    unfold runStep SDFileLogger.log_putc
    dsimp only
    exact ⟨hl.put c, hr, hs⟩
  | stage =>
    unfold runStep
    dsimp only
    obtain ⟨hwf, hc⟩ := SDFileLogger.prepGo_ready_spec _ st.sink hr
    refine ⟨SDFileLogger.prepGo_log_wf _ st.sink hl, hwf, ?_⟩
    rw [hc, hs, List.append_assoc]
  | doFlush =>
    unfold runStep SDFileLogger.flush_
    dsimp only
    cases hb : st.sink.ready_buffer.empty with
    | true =>
      simp only [hb, if_true]
      unfold SDFileLogger.writeBufferToSDFile
      dsimp only
      refine ⟨writeRing_buffer_wf _ _ hl, hr, ?_⟩
      rw [hs]
      simp
    | false =>
      simp only [hb, Bool.false_eq_true, if_false]
      unfold SDFileLogger.writeReadyBufferToSDFile
      dsimp only
      refine ⟨hl, ?_, ?_⟩
      · rw [writeRing_perfect _ hr]
        exact hr.reset
      · rw [writeRing_perfect _ hr, CircularBuffer.contentsList_reset, hs,
          flushCalls_flatten hr]
        simp

/-- The step invariant extends to whole interleavings. -/
theorem run_inv_all :
    ∀ (ops : List SinkOp) (st : RunSt),
      st.sink.log_buffer.WF → st.sink.ready_buffer.WF →
      st.staged = st.readyOut ++ st.sink.ready_buffer.contentsList →
      (List.foldl runStep st ops).staged =
        (List.foldl runStep st ops).readyOut ++
          (List.foldl runStep st ops).sink.ready_buffer.contentsList := by
  intro ops
  induction ops with
  | nil => intro st _ _ hs; exact hs
  | cons op rest ih =>
    intro st hl hr hs
    obtain ⟨h1, h2, h3⟩ := runStep_inv st op hl hr hs
    exact ih (runStep st op) h1 h2 h3

end SDLog

namespace SDLog

/-- Splitting the reported byte total over an event concatenation. -/
theorem acceptedSum_append (l1 l2 : List Ev) :
    acceptedSum (l1 ++ l2) = acceptedSum l1 + acceptedSum l2 := by
  simp [acceptedSum]

/-- A list of pure write events contains no fatal or reset event. -/
theorem count_zero_of_all_wr {l : List Ev}
    (h : ∀ e ∈ l, ∃ d a, e = Ev.wr d a) :
    l.count Ev.fatal = 0 ∧ l.count Ev.bufReset = 0 := by
  constructor <;> rw [List.count_eq_zero] <;> intro hm <;>
    obtain ⟨d, a, he⟩ := h _ hm <;> exact Ev.noConfusion he

/-- Claim C1: for every reachable state of a ring buffer, one flush
issues at most two contiguous write calls whose concatenation reproduces,
byte for byte and in order, the buffer's logical byte sequence from tail
to the most recently written byte. -/
theorem claim1_flush_linearizes (n : Nat) (b : CircularBuffer)
    (hn : 0 < n) (hb : CircularBuffer.Reachable n b) :
    (flushCalls b).length ≤ 2 ∧
    (flushCalls b).flatten = b.contentsList ∧
    ∀ (accept : Nat → Nat → Nat) (file : List Nat),
      writeCallData (writeRing accept b file).1 = flushCalls b := by
  have h := hb.wf hn
  exact ⟨flushCalls_length b, flushCalls_flatten h,
    fun accept file => writeRing_calls accept b file⟩

/-- Witness for C1 at a concrete wrapped reachable state of a capacity-2
buffer (two puts followed by a get, so tail = 1, head = 0, size = 1). -/
theorem claim1_witness :
    (flushCalls ((((CircularBuffer.init 2).put 5).1.put 6).1.get).2).length ≤ 2 ∧
    (flushCalls ((((CircularBuffer.init 2).put 5).1.put 6).1.get).2).flatten =
      ((((CircularBuffer.init 2).put 5).1.put 6).1.get).2.contentsList := by
  have h := claim1_flush_linearizes 2 ((((CircularBuffer.init 2).put 5).1.put 6).1.get).2
    (by decide)
    (((CircularBuffer.Reachable.init).put 5).put 6).get
  exact ⟨h.1, h.2.1⟩

/-- Claim C2: the flush write logic treats the buffer as wrapping exactly
when `tail > head`, or when `tail > 0` and the buffer is full; when
wrapping it issues two writes, of `capacity - tail` elements from
`storage[tail]` and then `head` elements from `storage[0]`, and otherwise
one write of `size()` elements from `storage[tail]`; for the capacity-8
buffer with tail = 6, head = 3, size = 5 the two writes have lengths 2
and 3. -/
theorem claim2_write_plan :
    (∀ b : CircularBuffer,
       ((b.head < b.tail ∨ (0 < b.tail ∧ b.size = b.capacity)) →
          flushCalls b = [b.lin b.tail (b.capacity - b.tail), b.lin 0 b.head] ∧
          (flushCalls b).map List.length = [b.capacity - b.tail, b.head]) ∧
       (¬(b.head < b.tail ∨ (0 < b.tail ∧ b.size = b.capacity)) →
          flushCalls b = [b.lin b.tail b.size] ∧
          (flushCalls b).map List.length = [b.size])) ∧
    exBuf8.capacity = 8 ∧ exBuf8.tail = 6 ∧ exBuf8.head = 3 ∧
    exBuf8.size = 5 ∧ (flushCalls exBuf8).map List.length = [2, 3] := by
  constructor
  · intro b
    constructor
    · intro h
      unfold flushCalls
      rw [if_pos h]
      exact ⟨rfl, by simp [CircularBuffer.length_lin]⟩
    · intro h
      unfold flushCalls
      rw [if_neg h]
      exact ⟨rfl, by simp [CircularBuffer.length_lin]⟩
  · exact ⟨rfl, rfl, rfl, rfl, by decide⟩

/-- Witness for C2 at the capacity-8 wrapped buffer: the wrap branch is
taken and the two planned writes are the tail-to-end and start-to-head
segments. -/
theorem claim2_witness :
    flushCalls exBuf8 =
      [exBuf8.lin exBuf8.tail (exBuf8.capacity - exBuf8.tail),
       exBuf8.lin 0 exBuf8.head] ∧
    (flushCalls exBuf8).map List.length = [exBuf8.capacity - exBuf8.tail, exBuf8.head] :=
  (claim2_write_plan.1 exBuf8).1 (by decide)

end SDLog

namespace SDLog

/-- Claim C3: a flushed buffer is reset exactly when the summed byte
count the backend reported equals the buffer's `size()`; on a mismatch
the fatal halt path is entered exactly once, with no reset and no
retried write; on success the backend durability flush and then the
reset follow the writes. -/
theorem claim3_flush_outcome (accept : Nat → Nat → Nat) (b : CircularBuffer)
    (file : List Nat) :
    (acceptedSum (writeRing accept b file).1 = b.size →
       (writeRing accept b file).2.1 = b.reset ∧
       (writeRing accept b file).1 =
         (doWrites accept 0 (flushCalls b) file).1 ++ [Ev.fsync, Ev.bufReset] ∧
       (writeRing accept b file).1.count Ev.fatal = 0) ∧
    (acceptedSum (writeRing accept b file).1 ≠ b.size →
       (writeRing accept b file).2.1 = b ∧
       (writeRing accept b file).1.count Ev.fatal = 1 ∧
       (writeRing accept b file).1.count Ev.bufReset = 0) ∧
    ((writeRing accept b file).1.count Ev.bufReset = 1 ↔
       acceptedSum (writeRing accept b file).1 = b.size) ∧
    writeCallData (writeRing accept b file).1 = flushCalls b := by
  obtain ⟨hcalls, hsum, hall⟩ := doWrites_spec accept (flushCalls b) 0 file
  obtain ⟨hf0, hr0⟩ := count_zero_of_all_wr hall
  simp only [writeCallData] at hcalls
  by_cases hc : (doWrites accept 0 (flushCalls b) file).2.1 = b.size
  · have hev : (writeRing accept b file).1 =
        (doWrites accept 0 (flushCalls b) file).1 ++ [Ev.fsync, Ev.bufReset] := by
      unfold writeRing
      dsimp only
      rw [if_pos hc]
    have hbuf : (writeRing accept b file).2.1 = b.reset := by
      unfold writeRing
      dsimp only
      rw [if_pos hc]
    have hA : acceptedSum (writeRing accept b file).1 = b.size := by
      rw [hev, acceptedSum_append, hsum, hc]
      simp [acceptedSum]
    have hcr : (writeRing accept b file).1.count Ev.bufReset = 1 := by
      rw [hev, List.count_append, hr0]
      decide
    have hcf : (writeRing accept b file).1.count Ev.fatal = 0 := by
      rw [hev, List.count_append, hf0]
      decide
    refine ⟨fun _ => ⟨hbuf, hev, hcf⟩, fun hn => absurd hA hn,
      ⟨fun _ => hA, fun _ => hcr⟩, ?_⟩
    rw [hev]
    simp only [writeCallData, List.filterMap_append, hcalls]
    simp
  · have hev : (writeRing accept b file).1 =
        (doWrites accept 0 (flushCalls b) file).1 ++ [Ev.fatal] := by
      unfold writeRing
      dsimp only
      rw [if_neg hc]
    have hbuf : (writeRing accept b file).2.1 = b := by
      unfold writeRing
      dsimp only
      rw [if_neg hc]
    have hA : acceptedSum (writeRing accept b file).1 =
        (doWrites accept 0 (flushCalls b) file).2.1 := by
      rw [hev, acceptedSum_append, hsum]
      simp [acceptedSum]
    have hAne : acceptedSum (writeRing accept b file).1 ≠ b.size := by
      rw [hA]
      exact hc
    have hcf : (writeRing accept b file).1.count Ev.fatal = 1 := by
      rw [hev, List.count_append, hf0]
      decide
    have hcr : (writeRing accept b file).1.count Ev.bufReset = 0 := by
      rw [hev, List.count_append, hr0]
      decide
    refine ⟨fun h => absurd h hAne, fun _ => ⟨hbuf, hcf, hcr⟩,
      ⟨fun h1 => ?_, fun h2 => absurd h2 hAne⟩, ?_⟩
    · rw [hcr] at h1
      exact absurd h1 (by decide)
    · rw [hev]
      simp only [writeCallData, List.filterMap_append, hcalls]
      simp

/-- Witness for C3: flushing the wrapped capacity-8 buffer against a
backend that accepts everything reported 5 = size() bytes, so the buffer
is reset, with the durability flush before the reset and no fatal
event. -/
theorem claim3_witness :
    (writeRing perfectAccept exBuf8 []).2.1 = exBuf8.reset ∧
    (writeRing perfectAccept exBuf8 []).1 =
      (doWrites perfectAccept 0 (flushCalls exBuf8) []).1 ++
        [Ev.fsync, Ev.bufReset] ∧
    (writeRing perfectAccept exBuf8 []).1.count Ev.fatal = 0 :=
  (claim3_flush_outcome perfectAccept exBuf8 []).1 (by decide)

end SDLog

namespace SDLog

/-- Claim C4: a flush request writes the ready buffer to the backend when
the ready buffer holds pending bytes and the primary buffer when the
ready buffer is empty; the write calls of one flush always come from
exactly one of the two buffers. -/
theorem claim4_flush_selection (accept : Nat → Nat → Nat) (s : SDFileLogger) :
    (s.ready_buffer.empty = false →
       writeCallData (SDFileLogger.flush_ accept s).1 =
         flushCalls s.ready_buffer) ∧
    (s.ready_buffer.empty = true →
       writeCallData (SDFileLogger.flush_ accept s).1 =
         flushCalls s.log_buffer) := by
  constructor
  · intro h
    unfold SDFileLogger.flush_
    rw [h, if_neg Bool.false_ne_true]
    exact writeRing_calls accept s.ready_buffer s.fileData
  · intro h
    unfold SDFileLogger.flush_
    rw [h, if_pos rfl]
    exact writeRing_calls accept s.log_buffer s.fileData

/-- Witness for C4 at a sink whose ready buffer is full (hence
nonempty): the flush writes the ready buffer's planned calls. -/
theorem claim4_witness :
    writeCallData (SDFileLogger.flush_ perfectAccept exFullReady).1 =
      flushCalls exFullReady.ready_buffer :=
  (claim4_flush_selection perfectAccept exFullReady).1 rfl

/-- Claim C9: one flush call mutates at most one of the two buffers:
with a nonempty ready buffer the primary buffer is untouched, and with an
empty ready buffer the ready buffer is untouched. -/
theorem claim9_flush_frame (accept : Nat → Nat → Nat) (s : SDFileLogger) :
    (s.ready_buffer.empty = false →
       (SDFileLogger.flush_ accept s).2.log_buffer = s.log_buffer) ∧
    (s.ready_buffer.empty = true →
       (SDFileLogger.flush_ accept s).2.ready_buffer = s.ready_buffer) := by
  constructor
  · intro h
    unfold SDFileLogger.flush_
    rw [h, if_neg Bool.false_ne_true]
    rfl
  · intro h
    unfold SDFileLogger.flush_
    rw [h, if_pos rfl]
    rfl

/-- Witness for C9: flushing a sink with a nonempty ready buffer leaves
its primary buffer exactly as it was. -/
theorem claim9_witness :
    (SDFileLogger.flush_ perfectAccept exFullReady).2.log_buffer =
      exFullReady.log_buffer :=
  (claim9_flush_frame perfectAccept exFullReady).1 rfl

end SDLog

namespace SDLog

/-- Counterexample to C5 as stated: at a sink whose ready buffer is
completely full, `prepareBuffer` still pops an element from the primary
buffer (its size drops from 1 to 0), although the claim says pops happen
only while the ready buffer is not full. -/
theorem claim5_counterexample :
    exFullReady.ready_buffer.size = exFullReady.ready_buffer.capacity ∧
    exFullReady.log_buffer.size = 1 ∧
    (SDFileLogger.prepareBuffer exFullReady).log_buffer.size = 0 := by
  refine ⟨rfl, rfl, ?_⟩
  decide

/-- Claim C5 as amended: one `prepareBuffer` call pops at most
`READY_BUFFER_SIZE` elements from the primary buffer regardless of the
ready buffer's fullness (a full ready buffer is left unchanged, dropping
the popped bytes), and it stops early as soon as the primary buffer
yields a zero byte, consuming it. -/
theorem claim5_amended (s : SDFileLogger) :
    s.log_buffer.size ≤ (SDFileLogger.prepareBuffer s).log_buffer.size +
      SDFileLogger.READY_BUFFER_SIZE ∧
    (s.ready_buffer.size = s.ready_buffer.capacity →
       (SDFileLogger.prepareBuffer s).ready_buffer = s.ready_buffer) ∧
    (s.log_buffer.get.1 = 0 →
       SDFileLogger.prepareBuffer s = { s with log_buffer := s.log_buffer.get.2 }) := by
  have hfuel : SDFileLogger.READY_BUFFER_SIZE / 1 = 511 + 1 := by
    norm_num [SDFileLogger.READY_BUFFER_SIZE]
  refine ⟨?_, ?_, ?_⟩
  · have h := SDFileLogger.prepGo_log_count (SDFileLogger.READY_BUFFER_SIZE / 1) s
    unfold SDFileLogger.prepareBuffer
    unfold CircularBuffer.size
    have h1 : SDFileLogger.READY_BUFFER_SIZE / 1 = SDFileLogger.READY_BUFFER_SIZE := by
      norm_num
    rw [h1] at h ⊢
    exact h
  · intro h
    exact SDFileLogger.prepGo_ready_full _ s h
  · intro h
    unfold SDFileLogger.prepareBuffer
    rw [hfuel, SDFileLogger.prepGo_break 511 s h]

/-- Witness for the amended C5 at a sink whose ready buffer is full and
whose primary buffer's front byte is zero: the primary pops are bounded,
the full ready buffer is unchanged, and the call stops at the sentinel. -/
theorem claim5_witness :
    exSentinelFull.log_buffer.size ≤
      (SDFileLogger.prepareBuffer exSentinelFull).log_buffer.size +
        SDFileLogger.READY_BUFFER_SIZE ∧
    (SDFileLogger.prepareBuffer exSentinelFull).ready_buffer =
      exSentinelFull.ready_buffer ∧
    SDFileLogger.prepareBuffer exSentinelFull =
      { exSentinelFull with log_buffer := exSentinelFull.log_buffer.get.2 } := by
  obtain ⟨h1, h2, h3⟩ := claim5_amended exSentinelFull
  exact ⟨h1, h2 rfl, h3 rfl⟩

/-- Claim C10: the staging loop never pushes a zero byte into the ready
buffer, and when the primary buffer's front byte is the zero sentinel,
`prepareBuffer` consumes exactly that byte and leaves the ready buffer
unchanged, so the sentinel never reaches the backend. -/
theorem claim10_sentinel :
    (∀ (fuel : Nat) (s : SDFileLogger) (x : Nat),
       x ∈ (SDFileLogger.prepGo fuel s).2 → x ≠ 0) ∧
    (∀ (s : SDFileLogger) (r : List Nat),
       s.log_buffer.WF → s.log_buffer.contentsList = 0 :: r →
       (SDFileLogger.prepareBuffer s).ready_buffer = s.ready_buffer ∧
       (SDFileLogger.prepareBuffer s).log_buffer.contentsList = r) := by
  refine ⟨SDFileLogger.prepGo_no_zero, ?_⟩
  intro s r hwf hc
  have hne : s.log_buffer.count ≠ 0 := by
    have hl := congrArg List.length hc
    rw [CircularBuffer.length_contentsList] at hl
    simp at hl
    omega
  have hget := CircularBuffer.contentsList_get hwf hne
  rw [hc] at hget
  have h1 : s.log_buffer.get.1 = 0 := (List.cons.inj hget).1.symm
  have h2 : s.log_buffer.get.2.contentsList = r := ((List.cons.inj hget).2).symm
  have hfuel : SDFileLogger.READY_BUFFER_SIZE / 1 = 511 + 1 := by
    norm_num [SDFileLogger.READY_BUFFER_SIZE]
  constructor
  · unfold SDFileLogger.prepareBuffer
    rw [hfuel, SDFileLogger.prepGo_break 511 s h1]
  · unfold SDFileLogger.prepareBuffer
    rw [hfuel, SDFileLogger.prepGo_break 511 s h1]
    exact h2

/-- Witness for C10 at a sink whose primary buffer holds exactly the zero
sentinel: the sentinel is consumed and the ready buffer is untouched. -/
theorem claim10_witness :
    (SDFileLogger.prepareBuffer exSentinelFront).ready_buffer =
      exSentinelFront.ready_buffer ∧
    (SDFileLogger.prepareBuffer exSentinelFront).log_buffer.contentsList = [] :=
  claim10_sentinel.2 exSentinelFront []
    (by unfold CircularBuffer.WF; decide) (by decide)

end SDLog

namespace SDLog

/-- Claim C6: across any interleaving of producer appends, staging and
flush calls, the bytes handed to the backend by ready-buffer flushes,
followed by the bytes still pending in the ready buffer, equal the full
staged stream in staging order — so a byte staged earlier is written to
the backend before any byte staged later; on the concrete interleaving
`exOps` the bytes 7 and 8 are actually staged and written in that
order. -/
theorem claim6_staging_fifo :
    (∀ ops : List SinkOp,
       (runOps ops).staged =
         (runOps ops).readyOut ++ (runOps ops).sink.ready_buffer.contentsList) ∧
    (runOps exOps).staged = [7, 8] ∧
    (runOps exOps).readyOut = [7, 8] := by
  refine ⟨?_, by decide, by decide⟩
  intro ops
  unfold runOps
  apply run_inv_all
  · exact CircularBuffer.WF.init (by decide)
  · exact CircularBuffer.WF.init (by decide)
  · rfl

/-- Claim C7: a `put` on a full ring buffer returns false and leaves the
buffer — size, head, tail, and stored elements — unchanged, so a byte
appended through the sink while the primary buffer is full is dropped
without corrupting buffered data. -/
theorem claim7_put_full :
    (∀ (b : CircularBuffer) (c : Nat), b.size = b.capacity →
       b.put c = (b, false)) ∧
    (∀ (s : SDFileLogger) (c : Nat),
       s.log_buffer.size = s.log_buffer.capacity →
       SDFileLogger.log_putc c s = s) := by
  constructor
  · intro b c h
    exact CircularBuffer.put_full c h
  · intro s c h
    unfold SDFileLogger.log_putc
    rw [CircularBuffer.put_full c h]

/-- Witness for C7 at a full capacity-1 buffer and a sink whose primary
buffer is that buffer. -/
theorem claim7_witness :
    exFullBuf.put 3 = (exFullBuf, false) ∧
    SDFileLogger.log_putc 3 exFullSink = exFullSink :=
  ⟨claim7_put_full.1 exFullBuf 3 rfl, claim7_put_full.2 exFullSink 3 rfl⟩

end SDLog
